import Mathlib

/-!
# fetcher: the consumption loop of `fetch` (src/main.go)

A shallow embedding of `fetch`: the `select` loop becomes a step function over
the event taken by the `select` (a value from `dataCh`, `dataCh` closed, a
tick of the idle ticker, `ctx.Done()`); the calls on the messaging client, the
log lines and the ticker operations become an explicit list of effects.
`int64` values are integers reduced with `wrap64` after every arithmetic
operation, `int32` flags are integers constrained by `inInt32`.
-/

namespace Fetcher

/-! ## Machine integers -/

/-- Two's-complement reduction of an integer to the `int64` range. -/
def wrap64 (x : Int) : Int := (x + 9223372036854775808) % 18446744073709551616 - 9223372036854775808

/-- The value is representable as an `int64`. -/
def inInt64 (x : Int) : Prop := -9223372036854775808 ≤ x ∧ x < 9223372036854775808

/-- The value is representable as an `int32`. -/
def inInt32 (x : Int) : Prop := -2147483648 ≤ x ∧ x < 2147483648

instance (x : Int) : Decidable (inInt64 x) := by unfold inInt64; exact inferInstance

instance (x : Int) : Decidable (inInt32 x) := by unfold inInt32; exact inferInstance

/-- Go `a + b` on `int64`. -/
def add64 (a b : Int) : Int := wrap64 (a + b)

/-- Go `a - b` on `int64`. -/
def sub64 (a b : Int) : Int := wrap64 (a - b)

/-- Go `a * b` on `int64`. -/
def mul64 (a b : Int) : Int := wrap64 (a * b)

/-- The constant `time.Second`, in nanoseconds. -/
def Second : Int := 1000000000

/-- The constant `time.Nanosecond`. -/
def Nanosecond : Int := 1

/-- A clock reading `time.Now().UnixNano()` between 1970 and 2116. -/
def clockReading (t : Int) : Prop := 0 ≤ t ∧ t < 4611686018427387904

instance (t : Int) : Decidable (clockReading t) := by unfold clockReading; exact inferInstance

/-! ## Flags -/

/-- The struct `GlobalFlags`, with the defaults registered by `initFlags`. -/
structure GlobalFlags where
  Address : String := "127.0.0.1:6570"
  Verbose : Bool := false
  Intervals : Int := 3
  StreamName : String := ""
  SubId : String := ""
  ConsumerName : String := ""
  AckTimeout : Int := 60
  Wait : Int := 60
  deriving DecidableEq, Repr

/-- The expression `time.Duration(globalFlags.Wait) * time.Second` of `fetch`. -/
def waitTimeout (flags : GlobalFlags) : Int := mul64 flags.Wait Second

/-! ## Records and delivered batches -/

/-- The type tag of a record. -/
inductive RecordType where
  | RAWRECORD
  | HRECORD
  deriving DecidableEq, Repr

/-- The payload of a record: bytes for a raw record, a key-ordered map for an
HRecord (values already rendered). -/
inductive Payload where
  | raw (bytes : String)
  | hrecord (fields : List (String × String))
  deriving DecidableEq, Repr

/-- A received record: its id as rendered by `rid.String()` and its payload. -/
structure Record where
  recordId : String
  payload : Payload
  deriving DecidableEq, Repr

/-- The method `record.GetRecordType()`. -/
def Record.GetRecordType (record : Record) : RecordType :=
  match record.payload with
  | .raw _ => .RAWRECORD
  | .hrecord _ => .HRECORD

/-- The rendering of `recordType.String()`. -/
def RecordType.String : RecordType → String
  | .RAWRECORD => "RAWRECORD"
  | .HRECORD => "HRECORD"

/-- The `switch record.GetRecordType()` of `fetch`: `string(p)` for raw bytes,
`fmt.Sprintf("%+v", p)` for a map. -/
def renderPayload (record : Record) : String :=
  match record.payload with
  | .raw p => p
  | .hrecord p => "map[" ++ " ".intercalate (p.map (fun kv => kv.1 ++ ":" ++ kv.2)) ++ "]"

/-- One value received from `dataCh`: the records and the delivery error. -/
structure FetchResult where
  Result : List Record
  Err : Option String
  deriving DecidableEq, Repr

/-! ## Effects -/

/-- A field of a log line. -/
inductive LogField where
  | str (key : String) (value : String)
  | int64 (key : String) (value : Int)
  deriving DecidableEq, Repr

/-- What the loop does to the outside: acknowledgements, log lines, ticker resets. -/
inductive Effect where
  | ack (record : Record)
  | info (msg : String) (fields : List LogField)
  | tickerReset (d : Int)
  deriving DecidableEq, Repr

/-- The text `fmt.Sprintf("[%s]", globalFlags.SubId)`. -/
def subTag (flags : GlobalFlags) : String := "[" ++ flags.SubId ++ "]"

/-- The final statistics line written by the idle-timeout and cancellation branches. -/
def totalsLog (flags : GlobalFlags) (successRead failedRead : Int) : Effect :=
  .info (subTag flags)
    [.int64 "total success read" successRead, .int64 "total failed read" failedRead]

/-- An effect is an acknowledgement. -/
def Effect.isAck : Effect → Bool
  | .ack _ => true
  | _ => false

/-- An effect is the per-record line of verbose mode (it carries a `recordId`). -/
def Effect.isRecordLine : Effect → Bool
  | .info _ (.str "recordId" _ :: _) => true
  | _ => false

/-- An effect is a log line. -/
def Effect.isLog : Effect → Bool
  | .info _ _ => true
  | _ => false

/-- The acknowledged record of an effect. -/
def Effect.acked : Effect → Option Record
  | .ack r => some r
  | _ => none

/-! ## The loop -/

/-- The variables of `fetch` the loop reads and writes. -/
structure LoopState where
  successRead : Int
  failedRead : Int
  latestActiveTs : Int
  deriving DecidableEq, Repr

/-- The state on entry to the loop. -/
def LoopState.init : LoopState := ⟨0, 0, 0⟩

/-- The case taken by one `select` of the loop. `now` is the value of
`time.Now().UnixNano()` read inside the case. -/
inductive Event where
  | data (now : Int) (res : FetchResult)
  | closed
  | tick (now : Int)
  | done
  deriving DecidableEq, Repr

/-- How one iteration ends: next iteration, `return nil`, or a run-time panic. -/
inductive Control where
  | next
  | ret
  | crash
  deriving DecidableEq, Repr

/-- The result of one iteration. -/
structure StepResult where
  state : LoopState
  effects : List Effect
  control : Control
  deriving DecidableEq, Repr

/-- The body of `for _, record := range res.Result` for one record. -/
def recordBody (flags : GlobalFlags) (record : Record) : List Effect :=
  Effect.ack record ::
    (if flags.Verbose then
      [Effect.info "recordType" [.str "tp" record.GetRecordType.String],
       Effect.info (subTag flags)
         [.str "recordId" record.recordId, .str "payload" (renderPayload record)]]
    else [])

/-- The loop `for _, record := range res.Result`. -/
def rangeRecords (flags : GlobalFlags) (records : List Record) : List Effect :=
  records.foldl (fun out record => out ++ recordBody flags record) []

/-- One iteration of the `for { select { ... } }` of `fetch`. -/
def step (flags : GlobalFlags) (s : LoopState) : Event → StepResult
  | .data now res =>
    let s1 := { s with latestActiveTs := now }
    let length : Int := res.Result.length
    match res.Err with
    | some _ => ⟨{ s1 with failedRead := add64 s1.failedRead length }, [], .next⟩
    | none =>
      ⟨{ s1 with successRead := add64 s1.successRead length },
        rangeRecords flags res.Result, .next⟩
  | .closed => ⟨s, [.info "dataCh closed, stop fetch data." []], .ret⟩
  | .tick now =>
    let lastTs := s.latestActiveTs
    let timeOutTs := waitTimeout flags
    if timeOutTs ≤ sub64 now lastTs then
      ⟨s, [.info "no more data fetched in timeout duration, stop." [],
           totalsLog flags s.successRead s.failedRead], .ret⟩
    else
      let diff := sub64 timeOutTs (sub64 now lastTs)
      let d := mul64 diff Nanosecond
      if d ≤ 0 then ⟨s, [], .crash⟩ else ⟨s, [.tickerReset d], .next⟩
  | .done => ⟨s, [totalsLog flags s.successRead s.failedRead], .ret⟩

/-- The outcome of feeding a sequence of events to the loop. `control = next`
means the loop is still waiting in `select`; `visited` lists the state after
every iteration executed, `taken` counts the iterations executed. -/
structure RunResult where
  state : LoopState
  effects : List Effect
  control : Control
  visited : List LoopState
  taken : Nat
  deriving DecidableEq, Repr

/-- The loop of `fetch` run on a sequence of events, stopping at the first
iteration that does not continue. -/
def run (flags : GlobalFlags) : LoopState → List Event → RunResult
  | s, [] => ⟨s, [], .next, [], 0⟩
  | s, ev :: evs =>
    let r := step flags s ev
    match r.control with
    | .next =>
      let r2 := run flags r.state evs
      ⟨r2.state, r.effects ++ r2.effects, r2.control, r.state :: r2.visited, r2.taken + 1⟩
    | c => ⟨r.state, r.effects, c, [r.state], 1⟩

/-- The relation between consecutive states of a run: no counter decreases. -/
def countersGrow (a b : LoopState) : Prop :=
  a.successRead ≤ b.successRead ∧ a.failedRead ≤ b.failedRead

instance (a b : LoopState) : Decidable (countersGrow a b) := by
  unfold countersGrow; exact inferInstance

/-- The number of records of the batches among the events. -/
def recordsIn : List Event → Int
  | [] => 0
  | .data _ res :: evs => (res.Result.length : Int) + recordsIn evs
  | _ :: evs => recordsIn evs

/-- The clock readings of the batches among the events, in order. -/
def receiptTimes : List Event → List Int
  | [] => []
  | .data now _ :: evs => now :: receiptTimes evs
  | _ :: evs => receiptTimes evs

/-! ## The statistics reporter goroutine -/

/-- The local variables of the reporter goroutine. -/
structure ReporterState where
  lastSuccessRead : Int
  lastFailedRead : Int
  deriving DecidableEq, Repr

/-- The baseline the reporter starts from. -/
def ReporterState.init : ReporterState := ⟨0, 0⟩

/-- The case taken by one `select` of the reporter: the timer fired (with the two
values then read by `atomic.LoadInt64`), or `ctx.Done()`. -/
inductive ReporterEvent where
  | fire (sRead fRead : Int)
  | done
  deriving DecidableEq, Repr

/-- The delta line written at a timer firing. -/
def deltaLog (flags : GlobalFlags) (success failed : Int) : Effect :=
  .info (subTag flags) [.int64 "success read" success, .int64 "failed read" failed]

/-- The `case <-timer.C` of the reporter. -/
def reporterFire (flags : GlobalFlags) (st : ReporterState) (sRead fRead : Int) :
    ReporterState × Effect :=
  let success := sub64 sRead st.lastSuccessRead
  let failed := sub64 fRead st.lastFailedRead
  (⟨sRead, fRead⟩, deltaLog flags success failed)

/-- The `for { select { ... } }` of the reporter: the final baseline and the lines written. -/
def reporterLoop (flags : GlobalFlags) : ReporterState → List ReporterEvent →
    ReporterState × List Effect
  | st, [] => (st, [])
  | st, .done :: _ => (st, [])
  | st, .fire sRead fRead :: evs =>
    let r := reporterFire flags st sRead fRead
    let rest := reporterLoop flags r.1 evs
    (rest.1, r.2 :: rest.2)

/-- The reporter goroutine, with its guard on `Intervals` and `Verbose`. -/
def reporter (flags : GlobalFlags) (evs : List ReporterEvent) : ReporterState × List Effect :=
  if flags.Intervals ≤ 0 ∨ flags.Verbose = true then (ReporterState.init, [])
  else reporterLoop flags ReporterState.init evs

/-- The readings of a sequence of timer firings, as reporter events. -/
def firings (readings : List (Int × Int)) : List ReporterEvent :=
  readings.map (fun r => .fire r.1 r.2)

/-! ## The ticker -/

/-- An idealised `time.Ticker`: its period and the time of its next tick. -/
structure Ticker where
  period : Int
  nextFire : Int
  deriving DecidableEq, Repr

/-- The call `time.NewTicker(d)` made at time `now`; it panics on a non-positive `d`. -/
def NewTicker (now d : Int) : Option Ticker :=
  if d ≤ 0 then none else some ⟨d, now + d⟩

/-- The call `ticker.Reset(d)` made at time `now`; it panics on a non-positive `d`. -/
def Ticker.Reset (_t : Ticker) (now d : Int) : Option Ticker :=
  if d ≤ 0 then none else some ⟨d, now + d⟩

/-- The ticker after it delivered a tick: the next one is a period later. -/
def Ticker.fired (t : Ticker) : Ticker := { t with nextFire := t.nextFire + t.period }

/-! ## `fetch` as a whole, with the calls on the messaging client -/

/-- A call made by `fetch`: on the messaging client, on the consumer, an
error log line of the set-up, or an effect of the loop. -/
inductive Call where
  | NewHStreamClient (address : String)
  | CreateSubscription (subId streamName : String) (ackTimeout : Int)
  | NewConsumer (consumerName subId : String)
  | StartFetch
  | errorLog (msg err : String)
  | loop (e : Effect)
  | Stop
  | DeleteSubscription (subId : String) (force : Bool)
  | Close
  deriving DecidableEq, Repr

/-- What the collaborators of one invocation of `fetch` do: the error of
`NewHStreamClient` and of `CreateSubscription` (if any), the clock reading
used for the generated consumer name, and the events the loop then takes. -/
structure Collaborators where
  newClientErr : Option String
  createSubscriptionErr : Option String
  unixNano : Int
  events : List Event
  deriving DecidableEq, Repr

/-- How an invocation of `fetch` ends: it returns (an error or nil), it
panics, or it is still waiting in the loop when the events are used up. -/
inductive Outcome where
  | returned (err : Option String)
  | panicked
  | waiting
  deriving DecidableEq, Repr

/-- The calls of an invocation and how it ended. -/
structure FetchRun where
  trace : List Call
  outcome : Outcome
  deriving DecidableEq, Repr

/-- The consumer name after `if globalFlags.ConsumerName == ""`. -/
def consumerName (flags : GlobalFlags) (unixNano : Int) : String :=
  if flags.ConsumerName = "" then "consumer_" ++ toString unixNano else flags.ConsumerName

/-- The deferred calls pending once the consumer exists, in the order they run. -/
def deferredCalls (flags : GlobalFlags) : List Call :=
  [.Stop, .DeleteSubscription flags.SubId true, .Close]

/-- The function `fetch`. A deferred call runs when the function returns or
panics after the `defer` statement was executed. -/
def fetch (flags : GlobalFlags) (env : Collaborators) : FetchRun :=
  match env.newClientErr with
  | some err =>
    ⟨[.NewHStreamClient flags.Address, .errorLog "failed to create hstream client" err],
      .returned (some err)⟩
  | none =>
    match env.createSubscriptionErr with
    | some err =>
      ⟨[.NewHStreamClient flags.Address,
        .CreateSubscription flags.SubId flags.StreamName flags.AckTimeout,
        .errorLog "create subscription err" err, .Close], .returned (some err)⟩
    | none =>
      let flags1 := { flags with ConsumerName := consumerName flags env.unixNano }
      let setup : List Call :=
        [.NewHStreamClient flags1.Address,
         .CreateSubscription flags1.SubId flags1.StreamName flags1.AckTimeout,
         .NewConsumer flags1.ConsumerName flags1.SubId, .StartFetch]
      match NewTicker env.unixNano (waitTimeout flags1) with
      | none => ⟨setup ++ deferredCalls flags1, .panicked⟩
      | some _ =>
        let r := run flags1 LoopState.init env.events
        match r.control with
        | .next => ⟨setup ++ r.effects.map .loop, .waiting⟩
        | .ret => ⟨setup ++ r.effects.map .loop ++ deferredCalls flags1, .returned none⟩
        | .crash => ⟨setup ++ r.effects.map .loop ++ deferredCalls flags1, .panicked⟩

/-! ## The loop against an idealised ticker -/

/-- The duration of the `ticker.Reset` among the effects of an iteration. -/
def rearmOf : List Effect → Option Int
  | [] => none
  | .tickerReset d :: _ => some d
  | _ :: es => rearmOf es

/-- How a timed run ends: the loop returned at a time, in a state, after
receiving a number of batches; or it panicked; or the fuel ran out. -/
inductive TimedOutcome where
  | exited (time : Int) (s : LoopState) (received : Nat)
  | crashed
  | outOfFuel
  deriving DecidableEq, Repr

/-- The iteration of the timed loop that takes the tick due at `tk.nextFire`. -/
def tickIteration (flags : GlobalFlags) (s : LoopState) (tk : Ticker) :
    StepResult × Option Ticker :=
  let r := step flags s (.tick tk.nextFire)
  match rearmOf r.effects with
  | some d => (r, tk.fired.Reset tk.nextFire d)
  | none => (r, some tk.fired)

/-- The loop of `fetch` against an idealised ticker and a schedule of batch
arrivals (time, batch), with no close and no cancellation. Each `select` takes
the earlier of the next arrival and the next tick; when both are ready at the
same time `select` may take either, and `batchFirst` (asked with the number of
iterations left) says which. The clock read inside a case is the time of the
event. -/
def timedLoop (flags : GlobalFlags) (batchFirst : Nat → Bool) :
    Nat → LoopState → Ticker → Nat → List (Int × FetchResult) → TimedOutcome
  | 0, _, _, _, _ => .outOfFuel
  | fuel + 1, s, tk, received, [] =>
    let r := tickIteration flags s tk
    match r.1.control, r.2 with
    | .ret, _ => .exited tk.nextFire r.1.state received
    | .next, some tk2 => timedLoop flags batchFirst fuel r.1.state tk2 received []
    | _, _ => .crashed
  | fuel + 1, s, tk, received, (t, res) :: rest =>
    if t < tk.nextFire ∨ (t = tk.nextFire ∧ batchFirst fuel = true) then
      let r := step flags s (.data t res)
      match r.control with
      | .next => timedLoop flags batchFirst fuel r.state tk (received + 1) rest
      | .ret => .exited t r.state (received + 1)
      | .crash => .crashed
    else
      let r := tickIteration flags s tk
      match r.1.control, r.2 with
      | .ret, _ => .exited tk.nextFire r.1.state received
      | .next, some tk2 =>
        timedLoop flags batchFirst fuel r.1.state tk2 received ((t, res) :: rest)
      | _, _ => .crashed

/-- The loop entered at time `t0`: the ticker is created with the wait
duration, then the loop runs from the initial state. -/
def timedFetch (flags : GlobalFlags) (batchFirst : Nat → Bool) (fuel : Nat) (t0 : Int)
    (arrivals : List (Int × FetchResult)) : TimedOutcome :=
  match NewTicker t0 (waitTimeout flags) with
  | none => .crashed
  | some tk => timedLoop flags batchFirst fuel LoopState.init tk 0 arrivals

/-! ## Predicates used in the statements -/

/-- A pair of cumulative readings of the two counters: non-negative `int64` values. -/
def readingOk (r : Int × Int) : Prop :=
  0 ≤ r.1 ∧ r.1 < 9223372036854775808 ∧ 0 ≤ r.2 ∧ r.2 < 9223372036854775808

instance (r : Int × Int) : Decidable (readingOk r) := by unfold readingOk; exact inferInstance

/-- The reading `b` is not below the reading `a`, in either counter. -/
def readingLe (a b : Int × Int) : Prop := a.1 ≤ b.1 ∧ a.2 ≤ b.2

instance (a b : Int × Int) : Decidable (readingLe a b) := by unfold readingLe; exact inferInstance

/-- The values the specification gives the last-activity timestamp after each
of a sequence of iterations: the clock reading of the receipt after a batch,
the previous value after any other event. -/
def specTimestamps : Int → List Event → List Int
  | _, [] => []
  | _, .data now _ :: evs => now :: specTimestamps now evs
  | ts, _ :: evs => ts :: specTimestamps ts evs

/-- The invariant of the timed loop, for a wait duration `W`: the timestamp is
a clock reading in range, the next tick is due no earlier than the last
activity and, once a batch was received, no later than `W` after it; before
any batch was received the first tick finds the wait elapsed; the arrivals
still to come are in time order, none earlier than the last activity. -/
def TimedInv (W : Int) (s : LoopState) (tk : Ticker) (received : Nat)
    (pending : List (Int × FetchResult)) : Prop :=
  0 ≤ s.latestActiveTs ∧ s.latestActiveTs < 4611686018427387904 ∧
    s.latestActiveTs ≤ tk.nextFire ∧ tk.nextFire - W < 4611686018427387904 ∧
    (0 < received → tk.nextFire ≤ s.latestActiveTs + W) ∧
    (received = 0 → W ≤ tk.nextFire - s.latestActiveTs) ∧
    List.Chain (fun a b : Int => a ≤ b) s.latestActiveTs (pending.map Prod.fst) ∧
    ∀ a ∈ pending, tk.nextFire ≤ a.1 + W ∧ a.1 < 4611686018427387904

instance (W : Int) (s : LoopState) (tk : Ticker) (received : Nat)
    (pending : List (Int × FetchResult)) : Decidable (TimedInv W s tk received pending) := by
  unfold TimedInv; exact inferInstance

/-- The next `select` of the timed loop takes the tick: no arrival is pending,
or the first one comes later than the tick (or with it, the tick going first). -/
def tickDue (tk : Ticker) (bf : Bool) : List (Int × FetchResult) → Prop
  | [] => True
  | (t, _) :: _ => ¬ (t < tk.nextFire ∨ (t = tk.nextFire ∧ bf = true))

instance (tk : Ticker) (bf : Bool) (pending : List (Int × FetchResult)) :
    Decidable (tickDue tk bf pending) := by
  cases pending with
  | nil => exact isTrue trivial
  | cons a rest => unfold tickDue; exact inferInstance

/-! ## Basic facts -/

lemma wrap64_of_inInt64 {x : Int} (h : inInt64 x) : wrap64 x = x := by
  unfold inInt64 at h
  unfold wrap64
  omega

lemma waitTimeout_eq (flags : GlobalFlags) (h : inInt32 flags.Wait) :
    waitTimeout flags = flags.Wait * 1000000000 := by
  unfold inInt32 at h
  unfold waitTimeout mul64 Second
  apply wrap64_of_inInt64
  unfold inInt64
  omega

lemma step_data_none (flags : GlobalFlags) (s : LoopState) (now : Int) (res : FetchResult)
    (h : res.Err = none) :
    step flags s (.data now res) =
      ⟨⟨add64 s.successRead res.Result.length, s.failedRead, now⟩,
        rangeRecords flags res.Result, .next⟩ := by
  simp [step, h]

lemma step_data_some (flags : GlobalFlags) (s : LoopState) (now : Int) (res : FetchResult)
    (e : String) (h : res.Err = some e) :
    step flags s (.data now res) =
      ⟨⟨s.successRead, add64 s.failedRead res.Result.length, now⟩, [], .next⟩ := by
  simp [step, h]

lemma step_tick_stop (flags : GlobalFlags) (s : LoopState) (now : Int)
    (h : waitTimeout flags ≤ sub64 now s.latestActiveTs) :
    step flags s (.tick now) =
      ⟨s, [.info "no more data fetched in timeout duration, stop." [],
           totalsLog flags s.successRead s.failedRead], .ret⟩ := by
  simp [step, h]

lemma step_tick_rearm (flags : GlobalFlags) (s : LoopState) (now : Int)
    (h : ¬ waitTimeout flags ≤ sub64 now s.latestActiveTs)
    (hd : 0 < mul64 (sub64 (waitTimeout flags) (sub64 now s.latestActiveTs)) Nanosecond) :
    step flags s (.tick now) =
      ⟨s, [.tickerReset (mul64 (sub64 (waitTimeout flags) (sub64 now s.latestActiveTs))
        Nanosecond)], .next⟩ := by
  simp [step, h, not_le.mpr hd]

lemma step_data_control (flags : GlobalFlags) (s : LoopState) (now : Int) (res : FetchResult) :
    (step flags s (.data now res)).control = .next := by
  cases h : res.Err with
  | none => rw [step_data_none flags s now res h]
  | some e => rw [step_data_some flags s now res e h]

lemma step_data_latestActiveTs (flags : GlobalFlags) (s : LoopState) (now : Int)
    (res : FetchResult) : (step flags s (.data now res)).state.latestActiveTs = now := by
  cases h : res.Err with
  | none => rw [step_data_none flags s now res h]
  | some e => rw [step_data_some flags s now res e h]

lemma step_closed_state (flags : GlobalFlags) (s : LoopState) :
    (step flags s .closed).state = s := rfl

lemma step_done_state (flags : GlobalFlags) (s : LoopState) :
    (step flags s .done).state = s := rfl

lemma step_tick_state (flags : GlobalFlags) (s : LoopState) (now : Int) :
    (step flags s (.tick now)).state = s := by
  simp only [step]
  split_ifs <;> rfl

lemma recordsIn_nonneg (evs : List Event) : 0 ≤ recordsIn evs := by
  induction evs with
  | nil => simp [recordsIn]
  | cons ev evs ih =>
    cases ev <;> simp only [recordsIn] <;> omega

lemma recordsIn_data_map (batches : List (Int × FetchResult)) :
    recordsIn (batches.map (fun b => Event.data b.1 b.2))
      = (batches.map (fun b => (b.2.Result.length : Int))).sum := by
  induction batches with
  | nil => rfl
  | cons b bs ih => simp [recordsIn, ih]

/-- The counters after a batch, when the addition stays in range. -/
lemma step_data_counters (flags : GlobalFlags) (s : LoopState) (now : Int) (res : FetchResult)
    (hs : 0 ≤ s.successRead) (hf : 0 ≤ s.failedRead)
    (hfit : s.successRead + s.failedRead + res.Result.length < 9223372036854775808) :
    let s2 := (step flags s (.data now res)).state
    s2.successRead + s2.failedRead = s.successRead + s.failedRead + res.Result.length ∧
      s.successRead ≤ s2.successRead ∧ s.failedRead ≤ s2.failedRead := by
  have hlen : (0 : Int) ≤ res.Result.length := Int.natCast_nonneg _
  cases h : res.Err with
  | none =>
    have h1 : add64 s.successRead res.Result.length = s.successRead + res.Result.length :=
      wrap64_of_inInt64 ⟨by omega, by omega⟩
    rw [step_data_none flags s now res h, h1]
    dsimp only
    omega
  | some e =>
    have h1 : add64 s.failedRead res.Result.length = s.failedRead + res.Result.length :=
      wrap64_of_inInt64 ⟨by omega, by omega⟩
    rw [step_data_some flags s now res e h, h1]
    dsimp only
    omega

lemma run_nil (flags : GlobalFlags) (s : LoopState) :
    run flags s [] = ⟨s, [], .next, [], 0⟩ := rfl

lemma run_cons_next (flags : GlobalFlags) (s : LoopState) (ev : Event) (evs : List Event)
    (h : (step flags s ev).control = .next) :
    run flags s (ev :: evs) =
      ⟨(run flags (step flags s ev).state evs).state,
        (step flags s ev).effects ++ (run flags (step flags s ev).state evs).effects,
        (run flags (step flags s ev).state evs).control,
        (step flags s ev).state :: (run flags (step flags s ev).state evs).visited,
        (run flags (step flags s ev).state evs).taken + 1⟩ := by
  simp only [run, h]

lemma run_cons_stop (flags : GlobalFlags) (s : LoopState) (ev : Event) (evs : List Event)
    (h : (step flags s ev).control ≠ .next) :
    run flags s (ev :: evs) =
      ⟨(step flags s ev).state, (step flags s ev).effects, (step flags s ev).control,
        [(step flags s ev).state], 1⟩ := by
  cases hc : (step flags s ev).control with
  | next => exact absurd hc h
  | ret => simp only [run, hc]
  | crash => simp only [run, hc]

/-- The accounting invariant of the loop over any sequence of events. -/
lemma run_accounting (flags : GlobalFlags) (evs : List Event) :
    ∀ s : LoopState, 0 ≤ s.successRead → 0 ≤ s.failedRead →
      s.successRead + s.failedRead + recordsIn evs < 9223372036854775808 →
      (run flags s evs).state.successRead + (run flags s evs).state.failedRead
          = s.successRead + s.failedRead + recordsIn (evs.take (run flags s evs).taken) ∧
        List.Chain countersGrow s (run flags s evs).visited := by
  induction evs with
  | nil =>
    intro s _ _ _
    simp [run_nil, recordsIn]
  | cons ev evs ih =>
    intro s hs hf hfit
    have hrest := recordsIn_nonneg evs
    by_cases hc : (step flags s ev).control = .next
    · rw [run_cons_next flags s ev evs hc]
      dsimp only
      rw [List.take_succ_cons]
      cases ev with
      | data now res =>
        simp only [recordsIn] at hfit ⊢
        obtain ⟨hsum, h1, h2⟩ := step_data_counters flags s now res hs hf (by omega)
        obtain ⟨ihsum, ihchain⟩ := ih (step flags s (.data now res)).state (by omega)
          (by omega) (by omega)
        exact ⟨by omega, List.Chain.cons ⟨h1, h2⟩ ihchain⟩
      | closed => exact absurd hc (by simp [step])
      | done => exact absurd hc (by simp [step])
      | tick now =>
        have hst := step_tick_state flags s now
        simp only [recordsIn] at hfit ⊢
        obtain ⟨ihsum, ihchain⟩ := ih (step flags s (.tick now)).state (by rw [hst]; exact hs)
          (by rw [hst]; exact hf) (by rw [hst]; omega)
        rw [hst] at ihsum ihchain ⊢
        exact ⟨ihsum, List.Chain.cons ⟨le_refl _, le_refl _⟩ ihchain⟩
    · rw [run_cons_stop flags s ev evs hc]
      dsimp only
      cases ev with
      | data now res => exact absurd (step_data_control flags s now res) hc
      | closed => simp [step, recordsIn, countersGrow]
      | done => simp [step, recordsIn, countersGrow]
      | tick now => simp [step_tick_state, recordsIn, countersGrow]

/-- The loop runs through a sequence of batches without stopping. -/
lemma run_data_append (flags : GlobalFlags) (batches : List (Int × FetchResult))
    (rest : List Event) : ∀ s : LoopState,
    run flags s (batches.map (fun b => Event.data b.1 b.2) ++ rest) =
      ⟨(run flags (run flags s (batches.map (fun b => Event.data b.1 b.2))).state rest).state,
        (run flags s (batches.map (fun b => Event.data b.1 b.2))).effects ++
          (run flags (run flags s (batches.map (fun b => Event.data b.1 b.2))).state rest).effects,
        (run flags (run flags s (batches.map (fun b => Event.data b.1 b.2))).state rest).control,
        (run flags s (batches.map (fun b => Event.data b.1 b.2))).visited ++
          (run flags (run flags s (batches.map (fun b => Event.data b.1 b.2))).state rest).visited,
        (run flags s (batches.map (fun b => Event.data b.1 b.2))).taken +
          (run flags (run flags s (batches.map (fun b => Event.data b.1 b.2))).state rest).taken⟩ := by
  induction batches with
  | nil =>
    intro s
    simp [run_nil]
  | cons b bs ih =>
    intro s
    have hc := step_data_control flags s b.1 b.2
    rw [List.map_cons, List.cons_append, run_cons_next flags s _ _ hc, run_cons_next flags s _ _ hc,
      ih]
    simp only [List.append_assoc, List.cons_append, RunResult.mk.injEq, true_and, and_true]
    omega

lemma run_data_taken (flags : GlobalFlags) (batches : List (Int × FetchResult)) :
    ∀ s : LoopState, (run flags s (batches.map (fun b => Event.data b.1 b.2))).taken
      = batches.length ∧
      (run flags s (batches.map (fun b => Event.data b.1 b.2))).control = .next := by
  induction batches with
  | nil =>
    intro s
    simp [run_nil]
  | cons b bs ih =>
    intro s
    have hc := step_data_control flags s b.1 b.2
    rw [List.map_cons, run_cons_next flags s _ _ hc]
    exact ⟨by simp [(ih _).1], (ih _).2⟩

lemma run_visited_length (flags : GlobalFlags) (evs : List Event) :
    ∀ s : LoopState, (run flags s evs).visited.length = (run flags s evs).taken := by
  induction evs with
  | nil =>
    intro s
    simp [run_nil]
  | cons ev evs ih =>
    intro s
    by_cases hc : (step flags s ev).control = .next
    · rw [run_cons_next flags s ev evs hc]
      simp [ih]
    · rw [run_cons_stop flags s ev evs hc]
      simp

lemma recordsIn_append (xs ys : List Event) :
    recordsIn (xs ++ ys) = recordsIn xs + recordsIn ys := by
  induction xs with
  | nil => simp [recordsIn]
  | cons ev xs ih =>
    cases ev <;> rw [List.cons_append] <;> simp only [recordsIn, ih]
    omega

/-- What follows an iteration that does not continue has no influence on the run. -/
lemma run_stop_irrelevant (flags : GlobalFlags) (batches : List (Int × FetchResult))
    (term : Event) (rest : List Event) (s : LoopState)
    (hterm : (step flags (run flags s (batches.map (fun b => Event.data b.1 b.2))).state
      term).control = .ret) :
    run flags s (batches.map (fun b => Event.data b.1 b.2) ++ term :: rest) =
      run flags s (batches.map (fun b => Event.data b.1 b.2) ++ [term]) := by
  have hne : (step flags (run flags s (batches.map (fun b => Event.data b.1 b.2))).state
      term).control ≠ .next := by
    rw [hterm]
    decide
  rw [run_data_append, run_data_append, run_cons_stop _ _ _ _ hne, run_cons_stop _ _ _ _ hne]

/-! ## C1: conservation of accounted records -/

/-- C1. Conservation of accounted records. The loop is started with both
counters at 0 and fed any finite sequence of delivered batches followed by an
event on which it returns (`dataCh` closed, cancellation, or a tick that
finds the wait elapsed), whatever comes after. If the records of the batches
number less than 2^63 (the counters are `int64`), the loop returns at that
event after one iteration per event, `successRead + failedRead` then equals
the sum of `len(res.Result)` over the batches, and along the states after each
iteration no counter decreases. -/
theorem conservation_of_accounted_records (flags : GlobalFlags)
    (batches : List (Int × FetchResult)) (term : Event) (rest : List Event)
    (hterm : (step flags (run flags LoopState.init
      (batches.map (fun b => Event.data b.1 b.2))).state term).control = .ret)
    (hfit : (batches.map (fun b => (b.2.Result.length : Int))).sum < 9223372036854775808) :
    (run flags LoopState.init
        (batches.map (fun b => Event.data b.1 b.2) ++ term :: rest)).control = .ret ∧
      (run flags LoopState.init
        (batches.map (fun b => Event.data b.1 b.2) ++ term :: rest)).taken
          = batches.length + 1 ∧
      (run flags LoopState.init
        (batches.map (fun b => Event.data b.1 b.2) ++ term :: rest)).visited.length
          = batches.length + 1 ∧
      (run flags LoopState.init
        (batches.map (fun b => Event.data b.1 b.2) ++ term :: rest)).state.successRead +
      (run flags LoopState.init
        (batches.map (fun b => Event.data b.1 b.2) ++ term :: rest)).state.failedRead
          = (batches.map (fun b => (b.2.Result.length : Int))).sum ∧
      List.Chain countersGrow LoopState.init (run flags LoopState.init
        (batches.map (fun b => Event.data b.1 b.2) ++ term :: rest)).visited := by
  have hne : (step flags (run flags LoopState.init
      (batches.map (fun b => Event.data b.1 b.2))).state term).control ≠ .next := by
    rw [hterm]
    decide
  have hterm0 : recordsIn [term] = 0 := by
    cases term with
    | data now res => exact absurd (step_data_control flags _ now res) hne
    | closed => rfl
    | tick now => rfl
    | done => rfl
  have htaken := (run_data_taken flags batches LoopState.init).1
  rw [run_stop_irrelevant flags batches term rest LoopState.init hterm]
  have hacc := run_accounting flags (batches.map (fun b => Event.data b.1 b.2) ++ [term])
    LoopState.init (le_refl _) (le_refl _)
    (by rw [recordsIn_append, hterm0, recordsIn_data_map]; simpa [LoopState.init] using hfit)
  have hshape := run_data_append flags batches [term] LoopState.init
  rw [run_cons_stop _ _ _ _ hne] at hshape
  have hvis : (run flags LoopState.init
      (batches.map (fun b => Event.data b.1 b.2))).visited.length = batches.length := by
    rw [← htaken]
    exact run_visited_length flags _ _
  refine ⟨?_, ?_, ?_, ?_, hacc.2⟩
  · rw [hshape]
    exact hterm
  · rw [hshape, htaken]
  · rw [hshape]
    simp [hvis]
  · have htk : (run flags LoopState.init
        (batches.map (fun b => Event.data b.1 b.2) ++ [term])).taken
          = (batches.map (fun b => Event.data b.1 b.2) ++ [term]).length := by
      rw [hshape]
      simp [htaken]
    have h := hacc.1
    rw [htk, List.take_length, recordsIn_append, hterm0, recordsIn_data_map] at h
    simpa [LoopState.init] using h

/-- C1 at a concrete run: a batch of three records, an errored batch of two,
then cancellation. -/
theorem conservation_of_accounted_records_witness :
    (run {} LoopState.init
      ([((10 : Int), (⟨[⟨"r1", .raw "a"⟩, ⟨"r2", .raw "b"⟩, ⟨"r3", .raw "c"⟩], none⟩ : FetchResult)),
        (20, ⟨[⟨"r4", .raw "d"⟩, ⟨"r5", .raw "e"⟩], some "unavailable"⟩)].map
          (fun b => Event.data b.1 b.2) ++ Event.done :: [])).state.successRead +
    (run {} LoopState.init
      ([((10 : Int), (⟨[⟨"r1", .raw "a"⟩, ⟨"r2", .raw "b"⟩, ⟨"r3", .raw "c"⟩], none⟩ : FetchResult)),
        (20, ⟨[⟨"r4", .raw "d"⟩, ⟨"r5", .raw "e"⟩], some "unavailable"⟩)].map
          (fun b => Event.data b.1 b.2) ++ Event.done :: [])).state.failedRead = 5 :=
  (conservation_of_accounted_records {}
    [(10, ⟨[⟨"r1", .raw "a"⟩, ⟨"r2", .raw "b"⟩, ⟨"r3", .raw "c"⟩], none⟩),
     (20, ⟨[⟨"r4", .raw "d"⟩, ⟨"r5", .raw "e"⟩], some "unavailable"⟩)]
    Event.done [] rfl (by decide)).2.2.2.1

/-! ## C2: acknowledgement of the records of an error-free batch -/

lemma rangeRecords_foldl (flags : GlobalFlags) (records : List Record) :
    ∀ out : List Effect,
      records.foldl (fun out record => out ++ recordBody flags record) out
        = out ++ rangeRecords flags records := by
  induction records with
  | nil => intro out; simp [rangeRecords]
  | cons r rs ih =>
    intro out
    simp only [rangeRecords, List.foldl_cons, List.nil_append]
    rw [ih (out ++ recordBody flags r), ih (recordBody flags r), List.append_assoc]

lemma rangeRecords_nil (flags : GlobalFlags) : rangeRecords flags [] = [] := rfl

lemma rangeRecords_cons (flags : GlobalFlags) (r : Record) (rs : List Record) :
    rangeRecords flags (r :: rs) = recordBody flags r ++ rangeRecords flags rs := by
  simp only [rangeRecords, List.foldl_cons, List.nil_append]
  exact rangeRecords_foldl flags rs (recordBody flags r)

lemma recordBody_acked (flags : GlobalFlags) (r : Record) :
    (recordBody flags r).filterMap Effect.acked = [r] := by
  unfold recordBody
  cases flags.Verbose <;> simp [Effect.acked]

lemma rangeRecords_acked (flags : GlobalFlags) (rs : List Record) :
    (rangeRecords flags rs).filterMap Effect.acked = rs := by
  induction rs with
  | nil => rfl
  | cons r rs ih =>
    rw [rangeRecords_cons, List.filterMap_append, recordBody_acked, ih]
    rfl

lemma recordBody_initial (flags : GlobalFlags) (r : Record) (k : Nat) :
    (((recordBody flags r).take k).filter Effect.isRecordLine).length
      ≤ (((recordBody flags r).take k).filter Effect.isAck).length := by
  unfold recordBody
  cases flags.Verbose
  · cases k <;> simp [Effect.isRecordLine, Effect.isAck]
  · rcases k with _ | _ | _ | k <;> simp [Effect.isRecordLine, Effect.isAck]

lemma recordBody_counts (flags : GlobalFlags) (r : Record) :
    ((recordBody flags r).filter Effect.isRecordLine).length
      ≤ ((recordBody flags r).filter Effect.isAck).length := by
  have h := recordBody_initial flags r (recordBody flags r).length
  rwa [List.take_length] at h

lemma rangeRecords_initial (flags : GlobalFlags) (rs : List Record) :
    ∀ k : Nat, (((rangeRecords flags rs).take k).filter Effect.isRecordLine).length
      ≤ (((rangeRecords flags rs).take k).filter Effect.isAck).length := by
  induction rs with
  | nil => intro k; simp [rangeRecords_nil]
  | cons r rs ih =>
    intro k
    rw [rangeRecords_cons, List.take_append_eq_append_take]
    simp only [List.filter_append, List.length_append]
    exact Nat.add_le_add (recordBody_initial flags r k) (ih _)

lemma rangeRecords_quiet (flags : GlobalFlags) (h : flags.Verbose = false) (rs : List Record) :
    rangeRecords flags rs = rs.map Effect.ack := by
  induction rs with
  | nil => rfl
  | cons r rs ih =>
    rw [rangeRecords_cons, ih]
    simp [recordBody, h]

lemma rangeRecords_record_lines (flags : GlobalFlags) (h : flags.Verbose = true)
    (rs : List Record) :
    (rangeRecords flags rs).filter Effect.isRecordLine
      = rs.map (fun r => Effect.info (subTag flags)
          [.str "recordId" r.recordId, .str "payload" (renderPayload r)]) := by
  induction rs with
  | nil => rfl
  | cons r rs ih =>
    rw [rangeRecords_cons, List.filter_append, ih]
    simp [recordBody, h, Effect.isRecordLine]

lemma recordBody_initial_logs (flags : GlobalFlags) (r : Record) (k : Nat) :
    (((recordBody flags r).take k).filter Effect.isLog).length
      ≤ 2 * (((recordBody flags r).take k).filter Effect.isAck).length := by
  unfold recordBody
  cases flags.Verbose
  · cases k <;> simp [Effect.isLog, Effect.isAck]
  · rcases k with _ | _ | _ | k <;> simp [Effect.isLog, Effect.isAck]

lemma rangeRecords_initial_logs (flags : GlobalFlags) (rs : List Record) :
    ∀ k : Nat, (((rangeRecords flags rs).take k).filter Effect.isLog).length
      ≤ 2 * (((rangeRecords flags rs).take k).filter Effect.isAck).length := by
  induction rs with
  | nil => intro k; simp [rangeRecords_nil]
  | cons r rs ih =>
    intro k
    rw [rangeRecords_cons, List.take_append_eq_append_take]
    simp only [List.filter_append, List.length_append]
    have h1 := recordBody_initial_logs flags r k
    have h2 := ih (k - (recordBody flags r).length)
    omega

lemma rangeRecords_loud (flags : GlobalFlags) (h : flags.Verbose = true) (rs : List Record) :
    rangeRecords flags rs = rs.flatMap (fun r =>
      [Effect.ack r,
       Effect.info "recordType" [.str "tp" r.GetRecordType.String],
       Effect.info ("[" ++ flags.SubId ++ "]")
         [.str "recordId" r.recordId, .str "payload" (renderPayload r)]]) := by
  induction rs with
  | nil => rfl
  | cons r rs ih =>
    rw [rangeRecords_cons, ih, List.flatMap_cons]
    simp [recordBody, h, subTag]

/-- C2. For every delivered batch whose `Err` is nil, in every state and
with the verbose flag on or off: the acknowledgements among the effects of the
iteration are exactly the records of `res.Result`, each once and in order;
the sequence is the same with the flag on and off; with the flag off the
iteration does nothing but acknowledge; with the flag on the effects are, for
each record in order, its acknowledgement, then its `recordType` line, then
its line with the record id and the payload, and nothing else; and in every
prefix of the effects the per-record lines are at most as many as the
acknowledgements and the log lines at most twice as many, so every line
written for a record comes after its acknowledgement. -/
theorem ack_every_record_in_order (flags : GlobalFlags) (s : LoopState) (now : Int)
    (res : FetchResult) (h : res.Err = none) :
    (step flags s (.data now res)).effects.filterMap Effect.acked = res.Result ∧
      (step { flags with Verbose := true } s (.data now res)).effects.filterMap Effect.acked
        = (step { flags with Verbose := false } s (.data now res)).effects.filterMap
            Effect.acked ∧
      (step { flags with Verbose := false } s (.data now res)).effects
        = res.Result.map Effect.ack ∧
      (step { flags with Verbose := true } s (.data now res)).effects
        = res.Result.flatMap (fun r =>
            [Effect.ack r,
             Effect.info "recordType" [.str "tp" r.GetRecordType.String],
             Effect.info ("[" ++ flags.SubId ++ "]")
               [.str "recordId" r.recordId, .str "payload" (renderPayload r)]]) ∧
      (step { flags with Verbose := true } s (.data now res)).effects.filter
          Effect.isRecordLine
        = res.Result.map (fun r => Effect.info ("[" ++ flags.SubId ++ "]")
            [.str "recordId" r.recordId, .str "payload" (renderPayload r)]) ∧
      (∀ k : Nat,
        (((step flags s (.data now res)).effects.take k).filter Effect.isRecordLine).length
          ≤ (((step flags s (.data now res)).effects.take k).filter Effect.isAck).length) ∧
      ∀ k : Nat,
        (((step flags s (.data now res)).effects.take k).filter Effect.isLog).length
          ≤ 2 * (((step flags s (.data now res)).effects.take k).filter Effect.isAck).length := by
  simp only [step_data_none _ s now res h]
  refine ⟨rangeRecords_acked flags _, ?_, rangeRecords_quiet _ rfl _, ?_, ?_,
    rangeRecords_initial flags _, rangeRecords_initial_logs flags _⟩
  · rw [rangeRecords_acked, rangeRecords_acked]
  · exact rangeRecords_loud _ rfl _
  · exact rangeRecords_record_lines _ rfl _

/-- C2 at a concrete batch of two records, verbose on: each record is
acknowledged, then its two lines are written. -/
theorem ack_every_record_in_order_witness :
    (step { Verbose := true, SubId := "sub1" } LoopState.init
      (.data 7 ⟨[⟨"r1", .raw "a"⟩, ⟨"r2", .hrecord [("k", "v")]⟩], none⟩)).effects
      = [Effect.ack ⟨"r1", .raw "a"⟩,
         Effect.info "recordType" [.str "tp" "RAWRECORD"],
         Effect.info "[sub1]" [.str "recordId" "r1", .str "payload" "a"],
         Effect.ack ⟨"r2", .hrecord [("k", "v")]⟩,
         Effect.info "recordType" [.str "tp" "HRECORD"],
         Effect.info "[sub1]" [.str "recordId" "r2", .str "payload" "map[k:v]"]] :=
  ((ack_every_record_in_order { Verbose := true, SubId := "sub1" } LoopState.init 7
    ⟨[⟨"r1", .raw "a"⟩, ⟨"r2", .hrecord [("k", "v")]⟩], none⟩ rfl).2.2.2.1).trans (by decide)

/-! ## C3: a batch with a delivery error -/

/-- C3. For every delivered batch whose `Err` is non-nil, in every state in
which `failedRead + len(res.Result)` is representable as an `int64`: the
iteration adds `len(res.Result)` to `failedRead`, leaves `successRead`
unchanged, has no effect at all (no acknowledgement, no line of output) and
continues with the next iteration. -/
theorem errored_batch_counts_as_failed (flags : GlobalFlags) (s : LoopState) (now : Int)
    (res : FetchResult) (e : String) (h : res.Err = some e)
    (hfit : inInt64 (s.failedRead + res.Result.length)) :
    (step flags s (.data now res)).state.failedRead = s.failedRead + res.Result.length ∧
      (step flags s (.data now res)).state.successRead = s.successRead ∧
      (step flags s (.data now res)).effects = [] ∧
      (step flags s (.data now res)).control = .next := by
  rw [step_data_some flags s now res e h]
  exact ⟨wrap64_of_inInt64 hfit, rfl, rfl, rfl⟩

/-- C3 at the scenario of the specification: an errored batch of 2 records
takes (success, failed) = (4, 1) to (4, 3) with no effect. -/
theorem errored_batch_counts_as_failed_witness :
    (step {} ⟨4, 1, 0⟩ (.data 9 ⟨[⟨"r1", .raw "a"⟩, ⟨"r2", .raw "b"⟩], some "unavailable"⟩)).state.failedRead
        = 3 ∧
      (step {} ⟨4, 1, 0⟩ (.data 9 ⟨[⟨"r1", .raw "a"⟩, ⟨"r2", .raw "b"⟩], some "unavailable"⟩)).state.successRead
        = 4 ∧
      (step {} ⟨4, 1, 0⟩ (.data 9 ⟨[⟨"r1", .raw "a"⟩, ⟨"r2", .raw "b"⟩], some "unavailable"⟩)).effects
        = [] ∧
      (step {} ⟨4, 1, 0⟩ (.data 9 ⟨[⟨"r1", .raw "a"⟩, ⟨"r2", .raw "b"⟩], some "unavailable"⟩)).control
        = .next :=
  errored_batch_counts_as_failed {} ⟨4, 1, 0⟩ 9
    ⟨[⟨"r1", .raw "a"⟩, ⟨"r2", .raw "b"⟩], some "unavailable"⟩ "unavailable" rfl (by decide)

/-! ## C5: the decision taken at a tick -/

/-- The subtractions of the tick branch do not wrap for clock readings in range. -/
lemma tick_arith (flags : GlobalFlags) (hw : inInt32 flags.Wait) (lastTs now : Int)
    (hl : clockReading lastTs) (hn0 : 0 ≤ now) (hn1 : now < 9223372036854775808) :
    sub64 now lastTs = now - lastTs ∧
      (now - lastTs < flags.Wait * 1000000000 →
        mul64 (sub64 (waitTimeout flags) (sub64 now lastTs)) Nanosecond
          = flags.Wait * 1000000000 - (now - lastTs)) := by
  unfold clockReading at hl
  have hw2 := hw
  unfold inInt32 at hw2
  have h1 : sub64 now lastTs = now - lastTs := wrap64_of_inInt64 ⟨by omega, by omega⟩
  refine ⟨h1, fun hlt => ?_⟩
  rw [h1, waitTimeout_eq flags hw]
  have h2 : sub64 (flags.Wait * 1000000000) (now - lastTs)
      = flags.Wait * 1000000000 - (now - lastTs) := wrap64_of_inInt64 ⟨by omega, by omega⟩
  rw [h2]
  unfold mul64 Nanosecond
  rw [mul_one]
  exact wrap64_of_inInt64 ⟨by omega, by omega⟩

/-- The two cases of the tick branch, for clock readings in range. -/
lemma step_tick_cases (flags : GlobalFlags) (s : LoopState) (now : Int)
    (hw : inInt32 flags.Wait) (hl : clockReading s.latestActiveTs)
    (hn0 : 0 ≤ now) (hn1 : now < 9223372036854775808) :
    (flags.Wait * 1000000000 ≤ now - s.latestActiveTs →
        step flags s (.tick now) =
          ⟨s, [.info "no more data fetched in timeout duration, stop." [],
               totalsLog flags s.successRead s.failedRead], .ret⟩) ∧
      (now - s.latestActiveTs < flags.Wait * 1000000000 →
        step flags s (.tick now) =
          ⟨s, [.tickerReset (flags.Wait * 1000000000 - (now - s.latestActiveTs))], .next⟩ ∧
        now + (flags.Wait * 1000000000 - (now - s.latestActiveTs))
          = s.latestActiveTs + flags.Wait * 1000000000) := by
  obtain ⟨h1, h2⟩ := tick_arith flags hw s.latestActiveTs now hl hn0 hn1
  constructor
  · intro hge
    apply step_tick_stop
    rw [h1, waitTimeout_eq flags hw]
    exact hge
  · intro hlt
    have hd := h2 hlt
    refine ⟨?_, by ring⟩
    rw [step_tick_rearm flags s now (by rw [h1, waitTimeout_eq flags hw]; omega)
      (by rw [hd]; omega), hd]

/-- C5. The decision at a tick, for an `int32` wait and clock readings in
range (last activity between 1970 and 2116, `now` a non-negative `int64`).
With `W = Wait * 10^9` and `elapsed = now - latestActiveTs`: if `elapsed >= W`
the loop returns, the state is unchanged, and the effects are the line
"no more data fetched in timeout duration, stop." followed by the line tagged
with the subscription id whose fields are "total success read" with the value
of `successRead` and "total failed read" with the value of `failedRead`;
otherwise the loop continues, the state (both counters and the timestamp) is
unchanged, and the only effect is `ticker.Reset(W - elapsed)`, so that `now`
plus the new period is `latestActiveTs + W`. -/
theorem tick_decision (flags : GlobalFlags) (s : LoopState) (now : Int)
    (hw : inInt32 flags.Wait) (hl : clockReading s.latestActiveTs)
    (hn0 : 0 ≤ now) (hn1 : now < 9223372036854775808) :
    (flags.Wait * 1000000000 ≤ now - s.latestActiveTs →
        step flags s (.tick now) =
          ⟨s, [Effect.info "no more data fetched in timeout duration, stop." [],
               Effect.info ("[" ++ flags.SubId ++ "]")
                 [.int64 "total success read" s.successRead,
                  .int64 "total failed read" s.failedRead]], .ret⟩) ∧
      (now - s.latestActiveTs < flags.Wait * 1000000000 →
        step flags s (.tick now) =
          ⟨s, [.tickerReset (flags.Wait * 1000000000 - (now - s.latestActiveTs))], .next⟩ ∧
        now + (flags.Wait * 1000000000 - (now - s.latestActiveTs))
          = s.latestActiveTs + flags.Wait * 1000000000) := by
  obtain ⟨hstop, hrearm⟩ := step_tick_cases flags s now hw hl hn0 hn1
  refine ⟨fun hge => ?_, hrearm⟩
  rw [hstop hge]
  rfl

/-- C5 at concrete ticks, wait 60 s, last activity at 10 s, counters (3, 1):
the tick at 30 s rearms the ticker for 40 s; the tick at 70 s ends the loop
with the two final lines, the totals line carrying 3 and 1. -/
theorem tick_decision_witness :
    step { SubId := "sub1" } ⟨3, 1, 10000000000⟩ (.tick 30000000000)
        = ⟨⟨3, 1, 10000000000⟩, [.tickerReset 40000000000], .next⟩ ∧
      step { SubId := "sub1" } ⟨3, 1, 10000000000⟩ (.tick 70000000000)
        = ⟨⟨3, 1, 10000000000⟩,
            [Effect.info "no more data fetched in timeout duration, stop." [],
             Effect.info "[sub1]"
               [.int64 "total success read" 3, .int64 "total failed read" 1]], .ret⟩ :=
  ⟨((tick_decision { SubId := "sub1" } ⟨3, 1, 10000000000⟩ 30000000000 (by decide) (by decide)
      (by decide) (by decide)).2 (by decide)).1,
   ((tick_decision { SubId := "sub1" } ⟨3, 1, 10000000000⟩ 70000000000 (by decide) (by decide)
      (by decide) (by decide)).1 (by decide)).trans (by decide)⟩

/-! ## C6: cancellation -/

/-- C6. In every state and whatever events are still to come, when the loop
takes the cancellation case it returns in that iteration: one iteration is
executed, the state (both counters, the timestamp) is unchanged, and the only
effect is one line, tagged with the subscription id, whose fields are
"total success read" with the value of `successRead` and "total failed read"
with the value of `failedRead`: no acknowledgement, no ticker operation. -/
theorem cancellation_returns_at_once (flags : GlobalFlags) (s : LoopState)
    (rest : List Event) :
    run flags s (.done :: rest) =
      ⟨s, [Effect.info ("[" ++ flags.SubId ++ "]")
            [.int64 "total success read" s.successRead,
             .int64 "total failed read" s.failedRead]], .ret, [s], 1⟩ := by
  rw [run_cons_stop flags s .done rest (by simp [step])]
  rfl

/-- C6 at the scenario of the specification: cancellation after one error-free
batch of 5 records, wait 60 s; a later batch is not received. The five
records are acknowledged, then the run ends with a single final line, total
success read 5, total failed read 0. -/
theorem cancellation_returns_at_once_witness :
    (run { SubId := "sub1" } LoopState.init
      [.data 1000000000 ⟨[⟨"r1", .raw "a"⟩, ⟨"r2", .raw "b"⟩, ⟨"r3", .raw "c"⟩,
          ⟨"r4", .raw "d"⟩, ⟨"r5", .raw "e"⟩], none⟩,
        .done,
        .data 4000000000 ⟨[⟨"r6", .raw "f"⟩], none⟩]).effects
      = [Effect.ack ⟨"r1", .raw "a"⟩, Effect.ack ⟨"r2", .raw "b"⟩, Effect.ack ⟨"r3", .raw "c"⟩,
         Effect.ack ⟨"r4", .raw "d"⟩, Effect.ack ⟨"r5", .raw "e"⟩,
         Effect.info "[sub1]"
           [.int64 "total success read" 5, .int64 "total failed read" 0]] := by
  rw [run_cons_next _ _ _ _ (step_data_control _ _ _ _), cancellation_returns_at_once]
  decide

/-! ## C7: the deltas of the statistics reporter -/

lemma reporter_active (flags : GlobalFlags) (hi : 0 < flags.Intervals)
    (hv : flags.Verbose = false) (evs : List ReporterEvent) :
    reporter flags evs = reporterLoop flags ReporterState.init evs := by
  simp [reporter, hv, not_le.mpr hi]

lemma reporter_silent (flags : GlobalFlags) (h : flags.Intervals ≤ 0 ∨ flags.Verbose = true)
    (evs : List ReporterEvent) : (reporter flags evs).2 = [] := by
  simp [reporter, h]

lemma reporterLoop_fire (flags : GlobalFlags) (st : ReporterState) (r : Int × Int)
    (rs : List (Int × Int)) :
    reporterLoop flags st (firings (r :: rs)) =
      ((reporterLoop flags ⟨r.1, r.2⟩ (firings rs)).1,
        deltaLog flags (sub64 r.1 st.lastSuccessRead) (sub64 r.2 st.lastFailedRead) ::
          (reporterLoop flags ⟨r.1, r.2⟩ (firings rs)).2) := by
  simp [firings, reporterLoop, reporterFire]

lemma reporterLoop_lines (flags : GlobalFlags) (rs : List (Int × Int)) :
    ∀ base : Int × Int, readingOk base → (∀ r ∈ rs, readingOk r) →
      (reporterLoop flags ⟨base.1, base.2⟩ (firings rs)).2 =
        List.zipWith (fun prev cur => deltaLog flags (cur.1 - prev.1) (cur.2 - prev.2))
          (base :: rs) rs := by
  induction rs with
  | nil => intro base _ _; rfl
  | cons r rs ih =>
    intro base hb hrs
    have hr : readingOk r := hrs r (List.mem_cons_self _ _)
    unfold readingOk at hb hr
    rw [reporterLoop_fire, List.zipWith_cons_cons,
      ih r (hrs r (List.mem_cons_self _ _)) (fun x hx => hrs x (List.mem_cons_of_mem _ hx))]
    have h1 : sub64 r.1 base.1 = r.1 - base.1 := wrap64_of_inInt64 ⟨by omega, by omega⟩
    have h2 : sub64 r.2 base.2 = r.2 - base.2 := wrap64_of_inInt64 ⟨by omega, by omega⟩
    simp only [h1, h2]

lemma reporterLoop_baseline (flags : GlobalFlags) (pre : List (Int × Int)) (r : Int × Int) :
    ∀ st : ReporterState,
      (reporterLoop flags st (firings (pre ++ [r]))).1 = ⟨r.1, r.2⟩ := by
  induction pre with
  | nil =>
    intro st
    rw [List.nil_append, reporterLoop_fire]
    rfl
  | cons p pre ih =>
    intro st
    rw [List.cons_append, reporterLoop_fire]
    exact ih _

lemma zipWith_deltas_nonneg (flags : GlobalFlags) (rs : List (Int × Int)) :
    ∀ base : Int × Int, List.Chain readingLe base rs →
      ∀ e ∈ List.zipWith (fun prev cur => deltaLog flags (cur.1 - prev.1) (cur.2 - prev.2))
          (base :: rs) rs,
        ∃ a b : Int, e = deltaLog flags a b ∧ 0 ≤ a ∧ 0 ≤ b := by
  induction rs with
  | nil => intro base _ e he; simp at he
  | cons r rs ih =>
    intro base hchain e he
    rw [List.chain_cons] at hchain
    rw [List.zipWith_cons_cons, List.mem_cons] at he
    rcases he with he | he
    · refine ⟨r.1 - base.1, r.2 - base.2, he, ?_, ?_⟩
      · have := hchain.1.1
        omega
      · have := hchain.1.2
        omega
    · exact ih r hchain.2 e he

/-- C7. The reporter goroutine with readings `(s_i, f_i)` at its consecutive
timer firings, all non-negative `int64` values. When the goroutine is active
(`Intervals > 0`, verbose off) it starts from the baseline (0, 0) and writes
one line per firing, tagged with the subscription id, whose fields are
"success read" with the value `s_i - s_(i-1)` and "failed read" with the
value `f_i - f_(i-1)`, where `(s_0, f_0) = (0, 0)` before the first firing;
after any firing the baseline is the reading of that firing; and when the
readings are non-decreasing from (0, 0), no delta written is negative. When
`Intervals <= 0` or verbose is on the goroutine returns at once and writes
nothing. -/
theorem reporter_logs_deltas (flags : GlobalFlags) (readings : List (Int × Int))
    (hok : ∀ r ∈ readings, readingOk r) :
    (0 < flags.Intervals → flags.Verbose = false →
      (reporter flags (firings readings)).2 =
          List.zipWith (fun prev cur => Effect.info ("[" ++ flags.SubId ++ "]")
              [.int64 "success read" (cur.1 - prev.1), .int64 "failed read" (cur.2 - prev.2)])
            ((0, 0) :: readings) readings ∧
        (∀ (pre post : List (Int × Int)) (r : Int × Int), readings = pre ++ r :: post →
          (reporter flags (firings (pre ++ [r]))).1 = ⟨r.1, r.2⟩) ∧
        (List.Chain readingLe (0, 0) readings →
          ∀ e ∈ (reporter flags (firings readings)).2,
            ∃ a b : Int, e = Effect.info ("[" ++ flags.SubId ++ "]")
                [.int64 "success read" a, .int64 "failed read" b] ∧ 0 ≤ a ∧ 0 ≤ b)) ∧
      (flags.Intervals ≤ 0 ∨ flags.Verbose = true →
        (reporter flags (firings readings)).2 = []) := by
  refine ⟨fun hi hv => ?_, fun h => reporter_silent flags h _⟩
  have hlines := reporterLoop_lines flags readings (0, 0)
    (by unfold readingOk; decide) hok
  refine ⟨?_, ?_, ?_⟩
  · rw [reporter_active flags hi hv]
    exact hlines
  · intro pre post r _
    rw [reporter_active flags hi hv]
    exact reporterLoop_baseline flags pre r _
  · intro hchain e he
    rw [reporter_active flags hi hv] at he
    have he2 : e ∈ List.zipWith
        (fun prev cur => deltaLog flags (cur.1 - prev.1) (cur.2 - prev.2))
        ((0, 0) :: readings) readings := by
      rw [← hlines]
      exact he
    exact zipWith_deltas_nonneg flags readings (0, 0) hchain e he2

/-- C7 at concrete readings (3, 0), (3, 2), (10, 2) with the default interval
of 3 s: the lines carry (3, 0), (0, 2), (7, 0). -/
theorem reporter_logs_deltas_witness :
    (reporter { SubId := "sub1" } (firings [(3, 0), (3, 2), (10, 2)])).2 =
      [Effect.info "[sub1]" [.int64 "success read" 3, .int64 "failed read" 0],
       Effect.info "[sub1]" [.int64 "success read" 0, .int64 "failed read" 2],
       Effect.info "[sub1]" [.int64 "success read" 7, .int64 "failed read" 0]] :=
  (((reporter_logs_deltas { SubId := "sub1" } [(3, 0), (3, 2), (10, 2)]
    (by unfold readingOk; decide)).1 (by decide) rfl).1).trans (by decide)

/-! ## C9: the last-activity timestamp -/

lemma step_other_latestActiveTs (flags : GlobalFlags) (s : LoopState) (ev : Event)
    (h : ∀ now res, ev ≠ .data now res) :
    (step flags s ev).state.latestActiveTs = s.latestActiveTs := by
  cases ev with
  | data now res => exact absurd rfl (h now res)
  | closed => rfl
  | done => rfl
  | tick now => rw [step_tick_state]

lemma run_timestamps (flags : GlobalFlags) (evs : List Event) :
    ∀ s : LoopState, (run flags s evs).visited.map (fun st => st.latestActiveTs)
      = specTimestamps s.latestActiveTs (evs.take (run flags s evs).taken) := by
  induction evs with
  | nil => intro s; simp [run_nil, specTimestamps]
  | cons ev evs ih =>
    intro s
    by_cases hc : (step flags s ev).control = .next
    · rw [run_cons_next flags s ev evs hc]
      dsimp only
      rw [List.take_succ_cons, List.map_cons, ih]
      cases ev with
      | data now res => simp only [specTimestamps, step_data_latestActiveTs]
      | closed => rfl
      | done => rfl
      | tick now => simp only [specTimestamps, step_tick_state]
    · rw [run_cons_stop flags s ev evs hc]
      cases ev with
      | data now res => exact absurd (step_data_control flags s now res) hc
      | closed => rfl
      | done => rfl
      | tick now => simp [specTimestamps, step_tick_state]

lemma run_timestamps_monotone (flags : GlobalFlags) (evs : List Event) :
    ∀ s : LoopState, List.Chain (fun a b : Int => a ≤ b) s.latestActiveTs (receiptTimes evs) →
      List.Chain (fun a b : Int => a ≤ b) s.latestActiveTs
        ((run flags s evs).visited.map (fun st => st.latestActiveTs)) := by
  induction evs with
  | nil => intro s _; simp [run_nil]
  | cons ev evs ih =>
    intro s hchain
    by_cases hc : (step flags s ev).control = .next
    · rw [run_cons_next flags s ev evs hc]
      dsimp only
      rw [List.map_cons]
      cases ev with
      | data now res =>
        simp only [receiptTimes, List.chain_cons] at hchain
        have hts := step_data_latestActiveTs flags s now res
        refine List.Chain.cons (by rw [hts]; exact hchain.1) ?_
        apply ih
        rw [hts]
        exact hchain.2
      | closed => exact absurd hc (by simp [step])
      | done => exact absurd hc (by simp [step])
      | tick now =>
        simp only [receiptTimes] at hchain
        have hst := step_tick_state flags s now
        refine List.Chain.cons (by rw [hst]) ?_
        apply ih
        rw [hst]
        exact hchain
    · rw [run_cons_stop flags s ev evs hc]
      cases ev with
      | data now res => exact absurd (step_data_control flags s now res) hc
      | closed => simp [step]
      | done => simp [step]
      | tick now => simp [step_tick_state]

/-- C9 as stated fails: the timestamp is the wall-clock reading of the
receipt, so when the clock reads 10 at one receipt and 5 at the next (it was
set back in between), the values the timestamp takes, 0, 10, 5, are not
non-decreasing. -/
theorem last_activity_not_monotone_counterexample :
    ¬ List.Chain (fun a b : Int => a ≤ b) LoopState.init.latestActiveTs
      ((run {} LoopState.init
        [.data 10 ⟨[⟨"r1", .raw "a"⟩], none⟩, .data 5 ⟨[⟨"r2", .raw "b"⟩], none⟩]).visited.map
        (fun st => st.latestActiveTs)) := by
  have h : (run {} LoopState.init
      [.data 10 ⟨[⟨"r1", .raw "a"⟩], none⟩, .data 5 ⟨[⟨"r2", .raw "b"⟩], none⟩]).visited.map
      (fun st => st.latestActiveTs) = [10, 5] := by decide
  rw [h]
  simp [LoopState.init]

/-- C9, amended. In the loop the last-activity timestamp is set by every
iteration that receives a batch, with or without a delivery error, to the
clock reading of that receipt, and no other iteration (tick, cancellation,
channel closed) changes it; so along every run its values are those the
specification gives. When the clock readings of the successive receipts are
non-decreasing from the initial value, so are the values of the timestamp. -/
theorem last_activity_set_by_batches_only (flags : GlobalFlags) :
    (∀ (s : LoopState) (now : Int) (res : FetchResult),
        (step flags s (.data now res)).state.latestActiveTs = now) ∧
      (∀ (s : LoopState) (ev : Event), (∀ now res, ev ≠ .data now res) →
        (step flags s ev).state.latestActiveTs = s.latestActiveTs) ∧
      (∀ (s : LoopState) (evs : List Event),
        (run flags s evs).visited.map (fun st => st.latestActiveTs)
          = specTimestamps s.latestActiveTs (evs.take (run flags s evs).taken)) ∧
      (∀ (s : LoopState) (evs : List Event),
        List.Chain (fun a b : Int => a ≤ b) s.latestActiveTs (receiptTimes evs) →
        List.Chain (fun a b : Int => a ≤ b) s.latestActiveTs
          ((run flags s evs).visited.map (fun st => st.latestActiveTs))) :=
  ⟨step_data_latestActiveTs flags, step_other_latestActiveTs flags,
    fun s evs => run_timestamps flags evs s, fun s evs => run_timestamps_monotone flags evs s⟩

/-- C9, amended, at a concrete run: an errored batch at 10, a tick, a batch at
30, then the channel is closed: the timestamp takes the values 10, 10, 30, 30. -/
theorem last_activity_set_by_batches_only_witness :
    (run {} LoopState.init
      [.data 10 ⟨[⟨"r1", .raw "a"⟩], some "unavailable"⟩, .tick 20,
        .data 30 ⟨[⟨"r2", .raw "b"⟩], none⟩, .closed]).visited.map
        (fun st => st.latestActiveTs) = [10, 10, 30, 30] ∧
      List.Chain (fun a b : Int => a ≤ b) 0
        ((run {} LoopState.init
          [.data 10 ⟨[⟨"r1", .raw "a"⟩], some "unavailable"⟩, .tick 20,
            .data 30 ⟨[⟨"r2", .raw "b"⟩], none⟩, .closed]).visited.map
          (fun st => st.latestActiveTs)) :=
  ⟨by
    rw [(last_activity_set_by_batches_only {}).2.2.1]
    decide,
   (last_activity_set_by_batches_only {}).2.2.2 LoopState.init _
     (by simp [receiptTimes, LoopState.init])⟩

/-! ## C10: the durations given to the ticker -/

lemma waitTimeout_consumerName (flags : GlobalFlags) (name : String) :
    waitTimeout { flags with ConsumerName := name } = waitTimeout flags := rfl

/-- C10. For every `int32` value of the wait flag: `Wait * 10^9` is
representable as an `int64`, so the wait duration is that product. When
`Wait > 0` the duration is positive, `time.NewTicker` succeeds, and at every
tick with clock readings in range (last activity between 1970 and 2116, `now`
a non-negative `int64`) the iteration does not panic and every duration it
passes to `ticker.Reset` is positive, accepted by `Reset`, and at most the
wait duration when `now >= latestActiveTs`. When `Wait <= 0` the duration is
non-positive, `time.NewTicker` fails, and `fetch`, once the set-up succeeded,
panics. -/
theorem ticker_durations_positive_iff_wait_positive (flags : GlobalFlags)
    (hw : inInt32 flags.Wait) :
    inInt64 (flags.Wait * Second) ∧ waitTimeout flags = flags.Wait * Second ∧
      (0 < flags.Wait →
        0 < waitTimeout flags ∧
        (∀ t0 : Int, NewTicker t0 (waitTimeout flags)
          = some ⟨waitTimeout flags, t0 + waitTimeout flags⟩) ∧
        ∀ (s : LoopState) (now : Int) (tk : Ticker), clockReading s.latestActiveTs →
          0 ≤ now → now < 9223372036854775808 →
          (step flags s (.tick now)).control ≠ .crash ∧
          ∀ d : Int, Effect.tickerReset d ∈ (step flags s (.tick now)).effects →
            0 < d ∧ tk.Reset now d = some ⟨d, now + d⟩ ∧
            (s.latestActiveTs ≤ now → d ≤ waitTimeout flags)) ∧
      (flags.Wait ≤ 0 →
        waitTimeout flags ≤ 0 ∧
        (∀ t0 : Int, NewTicker t0 (waitTimeout flags) = none) ∧
        ∀ env : Collaborators, env.newClientErr = none → env.createSubscriptionErr = none →
          (fetch flags env).outcome = .panicked) := by
  have hW := waitTimeout_eq flags hw
  have hw2 := hw
  unfold inInt32 at hw2
  refine ⟨?_, ?_, ?_, ?_⟩
  · unfold inInt64 Second
    omega
  · rw [hW]
    rfl
  · intro hpos
    have hWpos : 0 < waitTimeout flags := by rw [hW]; omega
    refine ⟨hWpos, ?_, ?_⟩
    · intro t0
      simp [NewTicker, not_le.mpr hWpos]
    · intro s now tk hl hn0 hn1
      obtain ⟨hstop, hrearm⟩ := step_tick_cases flags s now hw hl hn0 hn1
      by_cases hge : flags.Wait * 1000000000 ≤ now - s.latestActiveTs
      · rw [hstop hge]
        refine ⟨by simp, ?_⟩
        intro d hd
        simp [totalsLog] at hd
      · obtain ⟨hstep, _⟩ := hrearm (not_le.mp hge)
        rw [hstep]
        refine ⟨by simp, ?_⟩
        intro d hd
        simp only [List.mem_singleton, Effect.tickerReset.injEq] at hd
        subst hd
        have hdpos : 0 < flags.Wait * 1000000000 - (now - s.latestActiveTs) := by omega
        refine ⟨hdpos, ?_, ?_⟩
        · simp [Ticker.Reset, not_le.mpr hdpos]
        · intro hle
          rw [hW]
          omega
  · intro hneg
    have hWneg : waitTimeout flags ≤ 0 := by rw [hW]; omega
    refine ⟨hWneg, ?_, ?_⟩
    · intro t0
      simp [NewTicker, hWneg]
    · intro env h1 h2
      simp [fetch, h1, h2, NewTicker, waitTimeout_consumerName, hWneg]

/-- C10 at the default wait of 60 s: the ticker is created with a period of
60 s, and a `fetch` with a wait of 0 panics. -/
theorem ticker_durations_positive_iff_wait_positive_witness :
    NewTicker 0 (waitTimeout {}) = some ⟨waitTimeout {}, 0 + waitTimeout {}⟩ ∧
      (fetch { Wait := 0 } ⟨none, none, 1, [.closed]⟩).outcome = .panicked :=
  ⟨((ticker_durations_positive_iff_wait_positive {} (by decide)).2.2.1 (by decide)).2.1 0,
   ((ticker_durations_positive_iff_wait_positive { Wait := 0 } (by decide)).2.2.2
      (by decide)).2.2 ⟨none, none, 1, [.closed]⟩ rfl rfl⟩

/-! ## C8: teardown -/

/-- C8 as stated fails: when the construction of the client fails, `fetch`
returns the error after two calls; the consumer is not stopped and the
subscription is not deleted. -/
theorem teardown_absent_on_setup_failure_counterexample :
    (fetch { SubId := "sub1", StreamName := "stream1" }
        ⟨some "connection refused", none, 1, [.closed]⟩)
      = ⟨[.NewHStreamClient "127.0.0.1:6570",
          .errorLog "failed to create hstream client" "connection refused"],
          .returned (some "connection refused")⟩ ∧
      Call.Stop ∉ (fetch { SubId := "sub1", StreamName := "stream1" }
        ⟨some "connection refused", none, 1, [.closed]⟩).trace ∧
      Call.DeleteSubscription "sub1" true ∉ (fetch { SubId := "sub1", StreamName := "stream1" }
        ⟨some "connection refused", none, 1, [.closed]⟩).trace := by
  decide

/-- C8, amended. When the construction of the client fails, `fetch` returns
the error and makes no further call. When `CreateSubscription` fails, `fetch`
returns the error after closing the client: no `Stop`, no
`DeleteSubscription`. When both succeed, in every invocation that leaves the
loop (by return or by panic) the trace ends with `Stop`,
`DeleteSubscription(SubId, true)`, `Close`, in this order; and when the loop
returns the outcome is a nil error. -/
theorem teardown_after_successful_setup (flags : GlobalFlags) (env : Collaborators) :
    (∀ e : String, env.newClientErr = some e →
        fetch flags env =
          ⟨[.NewHStreamClient flags.Address, .errorLog "failed to create hstream client" e],
            .returned (some e)⟩) ∧
      (∀ e : String, env.newClientErr = none → env.createSubscriptionErr = some e →
        fetch flags env =
          ⟨[.NewHStreamClient flags.Address,
            .CreateSubscription flags.SubId flags.StreamName flags.AckTimeout,
            .errorLog "create subscription err" e, .Close], .returned (some e)⟩) ∧
      (env.newClientErr = none → env.createSubscriptionErr = none →
        (fetch flags env).outcome ≠ .waiting →
        [Call.Stop, Call.DeleteSubscription flags.SubId true, Call.Close]
          <:+ (fetch flags env).trace) ∧
      (env.newClientErr = none → env.createSubscriptionErr = none →
        0 < waitTimeout flags →
        (run { flags with ConsumerName := consumerName flags env.unixNano } LoopState.init
          env.events).control = .ret →
        (fetch flags env).outcome = .returned none) := by
  refine ⟨?_, ?_, ?_, ?_⟩
  · intro e h
    simp [fetch, h]
  · intro e h1 h2
    simp [fetch, h1, h2]
  · intro h1 h2
    simp only [fetch, h1, h2]
    cases NewTicker env.unixNano
        (waitTimeout { flags with ConsumerName := consumerName flags env.unixNano }) with
    | none =>
      intro _
      exact List.suffix_append _ _
    | some tk =>
      dsimp only
      cases (run { flags with ConsumerName := consumerName flags env.unixNano } LoopState.init
        env.events).control with
      | next => intro h; exact absurd rfl h
      | ret => intro _; exact List.suffix_append _ _
      | crash => intro _; exact List.suffix_append _ _
  · intro h1 h2 hpos hret
    simp [fetch, h1, h2, NewTicker, waitTimeout_consumerName, not_le.mpr hpos, hret]

/-- C8, amended, at a concrete invocation: one batch, then the channel is closed. -/
theorem teardown_after_successful_setup_witness :
    [Call.Stop, Call.DeleteSubscription "sub1" true, Call.Close]
      <:+ (fetch { SubId := "sub1", StreamName := "stream1", Wait := 5 }
        ⟨none, none, 1, [.data 7 ⟨[⟨"r1", .raw "a"⟩], none⟩, .closed]⟩).trace :=
  (teardown_after_successful_setup { SubId := "sub1", StreamName := "stream1", Wait := 5 }
    ⟨none, none, 1, [.data 7 ⟨[⟨"r1", .raw "a"⟩], none⟩, .closed]⟩).2.2.1 rfl rfl (by decide)

/-! ## C4: the idle timeout is measured from the last activity -/

lemma chain_relax_head {a b : Int} {l : List Int} (hab : b ≤ a)
    (h : List.Chain (fun x y : Int => x ≤ y) a l) :
    List.Chain (fun x y : Int => x ≤ y) b l := by
  cases h with
  | nil => exact List.Chain.nil
  | cons r t => exact List.Chain.cons (le_trans hab r) t

lemma tickIteration_stop (flags : GlobalFlags) (s : LoopState) (tk : Ticker)
    (hw : inInt32 flags.Wait) (hl : clockReading s.latestActiveTs)
    (hn0 : 0 ≤ tk.nextFire) (hn1 : tk.nextFire < 9223372036854775808)
    (hge : flags.Wait * 1000000000 ≤ tk.nextFire - s.latestActiveTs) :
    (tickIteration flags s tk).1.control = .ret ∧ (tickIteration flags s tk).1.state = s := by
  unfold tickIteration
  rw [(step_tick_cases flags s tk.nextFire hw hl hn0 hn1).1 hge]
  simp [rearmOf, totalsLog]

lemma tickIteration_rearm (flags : GlobalFlags) (s : LoopState) (tk : Ticker)
    (hw : inInt32 flags.Wait) (hl : clockReading s.latestActiveTs)
    (hn0 : 0 ≤ tk.nextFire) (hn1 : tk.nextFire < 9223372036854775808)
    (hlt : tk.nextFire - s.latestActiveTs < flags.Wait * 1000000000) :
    tickIteration flags s tk =
      (⟨s, [.tickerReset (flags.Wait * 1000000000 - (tk.nextFire - s.latestActiveTs))], .next⟩,
        some ⟨flags.Wait * 1000000000 - (tk.nextFire - s.latestActiveTs),
          s.latestActiveTs + flags.Wait * 1000000000⟩) := by
  unfold tickIteration
  rw [((step_tick_cases flags s tk.nextFire hw hl hn0 hn1).2 hlt).1]
  have hd : ¬ flags.Wait * 1000000000 - (tk.nextFire - s.latestActiveTs) ≤ 0 := by omega
  simp only [rearmOf, Ticker.Reset, Ticker.fired, hd, if_false]
  congr 3
  ring

lemma timedLoop_nil (flags : GlobalFlags) (bf : Nat → Bool) (fuel : Nat) (s : LoopState)
    (tk : Ticker) (received : Nat) :
    timedLoop flags bf (fuel + 1) s tk received [] =
      (match (tickIteration flags s tk).1.control, (tickIteration flags s tk).2 with
        | .ret, _ => .exited tk.nextFire (tickIteration flags s tk).1.state received
        | .next, some tk2 =>
          timedLoop flags bf fuel (tickIteration flags s tk).1.state tk2 received []
        | _, _ => .crashed) := by
  rw [timedLoop]

lemma timedLoop_cons_data (flags : GlobalFlags) (bf : Nat → Bool) (fuel : Nat) (s : LoopState)
    (tk : Ticker) (received : Nat) (t : Int) (res : FetchResult)
    (rest : List (Int × FetchResult))
    (h : t < tk.nextFire ∨ (t = tk.nextFire ∧ bf fuel = true)) :
    timedLoop flags bf (fuel + 1) s tk received ((t, res) :: rest) =
      timedLoop flags bf fuel (step flags s (.data t res)).state tk (received + 1) rest := by
  rw [timedLoop, if_pos h]
  simp only [step_data_control]

lemma timedLoop_cons_tick (flags : GlobalFlags) (bf : Nat → Bool) (fuel : Nat) (s : LoopState)
    (tk : Ticker) (received : Nat) (t : Int) (res : FetchResult)
    (rest : List (Int × FetchResult))
    (h : ¬ (t < tk.nextFire ∨ (t = tk.nextFire ∧ bf fuel = true))) :
    timedLoop flags bf (fuel + 1) s tk received ((t, res) :: rest) =
      (match (tickIteration flags s tk).1.control, (tickIteration flags s tk).2 with
        | .ret, _ => .exited tk.nextFire (tickIteration flags s tk).1.state received
        | .next, some tk2 =>
          timedLoop flags bf fuel (tickIteration flags s tk).1.state tk2 received
            ((t, res) :: rest)
        | _, _ => .crashed) := by
  rw [timedLoop, if_neg h]

lemma timedLoop_tick (flags : GlobalFlags) (bf : Nat → Bool) (fuel : Nat) (s : LoopState)
    (tk : Ticker) (received : Nat) (pending : List (Int × FetchResult))
    (h : tickDue tk (bf fuel) pending) :
    timedLoop flags bf (fuel + 1) s tk received pending =
      (match (tickIteration flags s tk).1.control, (tickIteration flags s tk).2 with
        | .ret, _ => .exited tk.nextFire (tickIteration flags s tk).1.state received
        | .next, some tk2 =>
          timedLoop flags bf fuel (tickIteration flags s tk).1.state tk2 received pending
        | _, _ => .crashed) := by
  cases pending with
  | nil => exact timedLoop_nil flags bf fuel s tk received
  | cons a rest => exact timedLoop_cons_tick flags bf fuel s tk received a.1 a.2 rest h

lemma tickDue_le (tk : Ticker) (bf : Bool) (L : Int) (pending : List (Int × FetchResult))
    (h : tickDue tk bf pending)
    (hchain : List.Chain (fun a b : Int => a ≤ b) L (pending.map Prod.fst)) :
    ∀ a ∈ pending, tk.nextFire ≤ a.1 := by
  cases pending with
  | nil => intro a ha; simp at ha
  | cons b rest =>
    intro a ha
    have hb : tk.nextFire ≤ b.1 := by
      unfold tickDue at h
      omega
    rw [List.map_cons, List.chain_cons] at hchain
    rcases List.mem_cons.mp ha with rfl | hmem
    · exact hb
    · have := hchain.2.rel (List.mem_map_of_mem Prod.fst hmem)
      omega

/-- The timed loop returns, and it returns exactly the wait duration after the
last batch it received. -/
lemma timedLoop_exits (flags : GlobalFlags) (hw : inInt32 flags.Wait) (bf : Nat → Bool) :
    ∀ (fuel : Nat) (s : LoopState) (tk : Ticker) (received : Nat)
      (pending : List (Int × FetchResult)),
      TimedInv (flags.Wait * 1000000000) s tk received pending →
      2 * pending.length +
        (if tk.nextFire - s.latestActiveTs < flags.Wait * 1000000000 then 2 else 1) ≤ fuel →
      ∃ (τ : Int) (s2 : LoopState) (k : Nat),
        timedLoop flags bf fuel s tk received pending = .exited τ s2 k ∧
        received ≤ k ∧ k ≤ received + pending.length ∧
        (s.latestActiveTs :: pending.map Prod.fst)[k - received]? = some s2.latestActiveTs ∧
        (0 < k → τ = s2.latestActiveTs + flags.Wait * 1000000000) ∧
        (k = 0 → τ = tk.nextFire) ∧
        (∀ a ∈ pending.drop (k - received), τ ≤ a.1) ∧
        (step flags s2 (.tick τ)).control = .ret := by
  intro fuel
  induction fuel with
  | zero =>
    intro s tk received pending _ hm
    split_ifs at hm <;> omega
  | succ f ih =>
    intro s tk received pending hinv hm
    obtain ⟨h0, h1, h2, h3, h4, h5, h6, h7⟩ := hinv
    have hw2 := hw
    unfold inInt32 at hw2
    have hl : clockReading s.latestActiveTs := ⟨h0, h1⟩
    have hn0 : 0 ≤ tk.nextFire := by omega
    have hn1 : tk.nextFire < 9223372036854775808 := by omega
    by_cases hdue : tickDue tk (bf f) pending
    · rw [timedLoop_tick flags bf f s tk received pending hdue]
      by_cases hge : flags.Wait * 1000000000 ≤ tk.nextFire - s.latestActiveTs
      · obtain ⟨hc, hst⟩ := tickIteration_stop flags s tk hw hl hn0 hn1 hge
        rw [hc, hst]
        refine ⟨tk.nextFire, s, received, rfl, le_refl _, by omega, by simp, ?_, fun _ => rfl,
          ?_, ?_⟩
        · intro hk
          have := h4 hk
          omega
        · rw [Nat.sub_self, List.drop_zero]
          exact tickDue_le tk (bf f) _ pending hdue h6
        · rw [(step_tick_cases flags s tk.nextFire hw hl hn0 hn1).1 hge]
      · have hlt : tk.nextFire - s.latestActiveTs < flags.Wait * 1000000000 := by omega
        rw [tickIteration_rearm flags s tk hw hl hn0 hn1 hlt]
        have hrec : 0 < received := by
          rcases Nat.eq_zero_or_pos received with h | h
          · exact absurd (h5 h) hge
          · exact h
        have hinv2 : TimedInv (flags.Wait * 1000000000) s
            ⟨flags.Wait * 1000000000 - (tk.nextFire - s.latestActiveTs),
              s.latestActiveTs + flags.Wait * 1000000000⟩ received pending := by
          refine ⟨h0, h1, by dsimp only; omega, by dsimp only; omega, fun _ => le_refl _,
            fun h => by omega, h6, ?_⟩
          intro a ha
          have := h6.rel (List.mem_map_of_mem Prod.fst ha)
          exact ⟨by dsimp only; omega, (h7 a ha).2⟩
        have hm2 : 2 * pending.length +
            (if (s.latestActiveTs + flags.Wait * 1000000000) - s.latestActiveTs
                < flags.Wait * 1000000000 then 2 else 1) ≤ f := by
          rw [if_pos hlt] at hm
          rw [if_neg (by omega)]
          omega
        obtain ⟨τ, s2, k, hrun, hk1, hk2, hget, hτ, _, hdrop, hret⟩ :=
          ih s _ received pending hinv2 hm2
        exact ⟨τ, s2, k, hrun, hk1, hk2, hget, hτ, fun hk => by omega, hdrop, hret⟩
    · cases pending with
      | nil => exact absurd trivial hdue
      | cons a rest =>
        obtain ⟨t, res⟩ := a
        have hdata : t < tk.nextFire ∨ (t = tk.nextFire ∧ bf f = true) := by
          unfold tickDue at hdue
          exact not_not.mp hdue
        rw [timedLoop_cons_data flags bf f s tk received t res rest hdata]
        rw [List.map_cons, List.chain_cons] at h6
        have hts := step_data_latestActiveTs flags s t res
        have ha := h7 (t, res) (List.mem_cons_self _ _)
        dsimp only at h6 ha
        have hinv2 : TimedInv (flags.Wait * 1000000000) (step flags s (.data t res)).state tk
            (received + 1) rest := by
          refine ⟨by rw [hts]; omega, by rw [hts]; exact ha.2, by rw [hts]; omega, h3,
            fun _ => by rw [hts]; exact ha.1, fun h => by omega, by rw [hts]; exact h6.2, ?_⟩
          intro b hb
          exact h7 b (List.mem_cons_of_mem _ hb)
        have hm2 : 2 * rest.length +
            (if tk.nextFire - (step flags s (.data t res)).state.latestActiveTs
                < flags.Wait * 1000000000 then 2 else 1) ≤ f := by
          rw [List.length_cons] at hm
          split_ifs at hm ⊢ <;> omega
        obtain ⟨τ, s2, k, hrun, hk1, hk2, hget, hτ, _, hdrop, hret⟩ :=
          ih _ tk (received + 1) rest hinv2 hm2
        refine ⟨τ, s2, k, hrun, by omega, by rw [List.length_cons]; omega, ?_, hτ,
          fun hk => by omega, ?_, hret⟩
        · have hidx : k - received = (k - (received + 1)) + 1 := by omega
          rw [hidx, List.map_cons, List.getElem?_cons_succ]
          rw [hts] at hget
          exact hget
        · have hidx : k - received = (k - (received + 1)) + 1 := by omega
          rw [hidx, List.drop_succ_cons]
          exact hdrop

/-- C4. The idle timeout is measured from the last activity. The loop is
entered at time `t0` with a positive `int32` wait, `W = Wait * 10^9`, against
an idealised ticker (first tick `W` after creation, after `Reset(d)` the next
tick `d` later) and a schedule of batch arrivals in time order from `t0` on
(clock readings between 1970 and 2116), with no close and no cancellation;
a tie between an arrival and a tick is decided either way, each time. With fuel for two
iterations per arrival and two more, the loop returns, through the tick case.
It received the first `k` arrivals; every other arrival comes no earlier than
the return, and the tick taken at the time of the return finds the wait
elapsed. If `k > 0` and the last batch received came at time `T`, the loop
returns at time exactly `T + W` (so no tick before `T + W` ended it); if no
batch was received it returns at `t0 + W`. -/
theorem idle_timeout_from_last_activity (flags : GlobalFlags) (hw : inInt32 flags.Wait)
    (hpos : 0 < flags.Wait) (batchFirst : Nat → Bool) (t0 : Int)
    (arrivals : List (Int × FetchResult)) (fuel : Nat)
    (hfuel : 2 * arrivals.length + 2 ≤ fuel) (ht0 : clockReading t0)
    (hsorted : List.Chain (fun a b : Int => a ≤ b) t0 (arrivals.map Prod.fst))
    (hrange : ∀ a ∈ arrivals, a.1 < 4611686018427387904) :
    ∃ (τ : Int) (s : LoopState) (k : Nat),
      timedFetch flags batchFirst fuel t0 arrivals = .exited τ s k ∧
      k ≤ arrivals.length ∧
      (k = 0 → τ = t0 + flags.Wait * 1000000000) ∧
      (0 < k → (arrivals.map Prod.fst)[k - 1]? = some s.latestActiveTs ∧
        τ = s.latestActiveTs + flags.Wait * 1000000000) ∧
      (∀ a ∈ arrivals.drop k, τ ≤ a.1) ∧
      (step flags s (.tick τ)).control = .ret := by
  have hW := waitTimeout_eq flags hw
  unfold clockReading at ht0
  have hWpos : ¬ flags.Wait * 1000000000 ≤ 0 := by omega
  have hinv : TimedInv (flags.Wait * 1000000000) LoopState.init
      ⟨flags.Wait * 1000000000, t0 + flags.Wait * 1000000000⟩ 0 arrivals := by
    refine ⟨le_refl _, by decide, ?_, ?_, fun h => absurd h (lt_irrefl _), fun _ => ?_, ?_, ?_⟩
    · show (0 : Int) ≤ t0 + flags.Wait * 1000000000
      omega
    · show t0 + flags.Wait * 1000000000 - flags.Wait * 1000000000 < 4611686018427387904
      omega
    · show flags.Wait * 1000000000 ≤ t0 + flags.Wait * 1000000000 - 0
      omega
    · exact chain_relax_head ht0.1 hsorted
    · intro a ha
      have := hsorted.rel (List.mem_map_of_mem Prod.fst ha)
      exact ⟨by show t0 + flags.Wait * 1000000000 ≤ a.1 + flags.Wait * 1000000000; omega,
        hrange a ha⟩
  have hm : 2 * arrivals.length +
      (if (t0 + flags.Wait * 1000000000) - LoopState.init.latestActiveTs
          < flags.Wait * 1000000000 then 2 else 1) ≤ fuel := by
    split_ifs <;> omega
  obtain ⟨τ, s, k, hrun, _, hk2, hget, hτ, hk0, hdrop, hret⟩ :=
    timedLoop_exits flags hw batchFirst fuel LoopState.init
      ⟨flags.Wait * 1000000000, t0 + flags.Wait * 1000000000⟩ 0 arrivals hinv hm
  refine ⟨τ, s, k, ?_, by omega, hk0, ?_, hdrop, hret⟩
  · unfold timedFetch NewTicker
    rw [hW, if_neg hWpos]
    exact hrun
  · intro hk
    refine ⟨?_, hτ hk⟩
    have hidx : k - 0 = (k - 1) + 1 := by omega
    rw [hidx, List.getElem?_cons_succ] at hget
    exact hget

/-- C4 at the scenario of the specification: wait 5 s, one batch of 3
error-free records at t = 0: the loop returns at t = 5 s with `successRead`
3 and `failedRead` 0. And with the batch at t = 2 s: the tick at 5 s rearms
the ticker for 2 s and the loop returns at 7 s. -/
theorem idle_timeout_from_last_activity_witness :
    timedFetch { Wait := 5 } (fun _ => true) 4 0
        [(0, ⟨[⟨"r1", .raw "a"⟩, ⟨"r2", .raw "b"⟩, ⟨"r3", .raw "c"⟩], none⟩)]
      = .exited 5000000000 ⟨3, 0, 0⟩ 1 ∧
    timedFetch { Wait := 5 } (fun _ => true) 4 0
        [(2000000000, ⟨[⟨"r1", .raw "a"⟩, ⟨"r2", .raw "b"⟩, ⟨"r3", .raw "c"⟩], none⟩)]
      = .exited 7000000000 ⟨3, 0, 2000000000⟩ 1 ∧
    ∃ (τ : Int) (s : LoopState) (k : Nat),
      timedFetch { Wait := 5 } (fun _ => true) 4 0
          [(0, ⟨[⟨"r1", .raw "a"⟩, ⟨"r2", .raw "b"⟩, ⟨"r3", .raw "c"⟩], none⟩)]
        = .exited τ s k ∧
      k ≤ 1 ∧
      (k = 0 → τ = 0 + 5 * 1000000000) ∧
      (0 < k → ([(0, (⟨[⟨"r1", .raw "a"⟩, ⟨"r2", .raw "b"⟩, ⟨"r3", .raw "c"⟩], none⟩ :
          FetchResult))].map Prod.fst)[k - 1]? = some s.latestActiveTs ∧
        τ = s.latestActiveTs + 5 * 1000000000) ∧
      (∀ a ∈ [((0 : Int), (⟨[⟨"r1", .raw "a"⟩, ⟨"r2", .raw "b"⟩, ⟨"r3", .raw "c"⟩], none⟩ :
          FetchResult))].drop k, τ ≤ a.1) ∧
      (step { Wait := 5 } s (.tick τ)).control = .ret :=
  ⟨by decide, by decide,
    idle_timeout_from_last_activity { Wait := 5 } (by decide) (by decide) (fun _ => true) 0
      [(0, ⟨[⟨"r1", .raw "a"⟩, ⟨"r2", .raw "b"⟩, ⟨"r3", .raw "c"⟩], none⟩)] 4 (by decide)
      (by decide) (by simp) (by simp)⟩

end Fetcher
